import Mathlib

/-!
Shallow embedding of the WebRTC conference-room client
(`src/views/ConferenceRoom/Conference.tsx`) of the agoraX front-end.

The component keeps one `RTCPeerConnection` per remote socket id in a mutable
record `peerConnections.current`, a local `MediaStream`, a mic flag `isMicOn`,
and a chunked `MediaRecorder` pipeline.  The definitions below translate the
relevant handlers into pure functions over an explicit state.  Browser objects
(`RTCPeerConnection`, `MediaStream`, `MediaRecorder`) are modelled by the
fields the component reads and writes, with the platform's documented
signaling-state transition rules for `setLocalDescription`,
`setRemoteDescription` and `addIceCandidate`; a rejected platform call is an
`Option` value of `none` (the source never catches these rejections).
-/

namespace Conf

/-- Kind of a media track, as reported by `track.kind` in the source. -/
inductive TrackKind
  | audio
  | video
  deriving DecidableEq, Repr

/-- A `MediaStreamTrack`: the source only reads and writes `kind`, `enabled`
(mute toggles flip it) and stop state (`track.stop()` at teardown). -/
structure MediaStreamTrack where
  kind : TrackKind
  enabled : Bool
  stopped : Bool
  deriving DecidableEq, Repr

/-- A `MediaStream` as a list of tracks. -/
structure MediaStream where
  tracks : List MediaStreamTrack
  deriving DecidableEq, Repr

/-- `stream.getAudioTracks()`. -/
def MediaStream.getAudioTracks (s : MediaStream) : List MediaStreamTrack :=
  s.tracks.filter fun t => t.kind == TrackKind.audio

/-- `stream.getVideoTracks()`. -/
def MediaStream.getVideoTracks (s : MediaStream) : List MediaStreamTrack :=
  s.tracks.filter fun t => t.kind == TrackKind.video

/-- WebRTC signaling states reachable by this client (it never uses
pranswer), matching the strings `"stable"`, `"have-local-offer"`,
`"have-remote-offer"` it compares against. -/
inductive SignalingState
  | stable
  | haveLocalOffer
  | haveRemoteOffer
  deriving DecidableEq, Repr

/-- Session-description type, matching `RTCSessionDescriptionInit.type`. -/
inductive DescType
  | offer
  | answer
  | rollback
  deriving DecidableEq, Repr

/-- An `RTCSessionDescriptionInit` value. -/
structure SessionDesc where
  dtype : DescType
  sdp : String
  deriving DecidableEq, Repr

/-- An ICE candidate payload (opaque to the client). -/
structure Candidate where
  payload : String
  deriving DecidableEq, Repr

/-- An `RTCRtpSender`: the source only reads `sender.track` and writes
`sender.track.enabled`. -/
structure Sender where
  track : Option MediaStreamTrack
  deriving DecidableEq, Repr

/-- The slice of an `RTCPeerConnection` the component observes.
`appliedCandidates` records the candidates successfully passed to
`addIceCandidate`.  `pendingRemoteCandidates` is the buffering queue the
specification attributes to each peer link; the source declares no such
queue, so no function below ever appends to it — the field exists so that
the buffering property can be stated against the code. -/
structure RTCPeerConnection where
  senders : List Sender
  signalingState : SignalingState
  localDescription : Option SessionDesc
  remoteDescription : Option SessionDesc
  appliedCandidates : List Candidate
  pendingRemoteCandidates : List Candidate
  deriving DecidableEq, Repr

/-- A freshly constructed `new RTCPeerConnection({ iceServers })`;
the ICE-server configuration (source lines 477 to 508) only parametrises the
constructor and is not observable through any field used by the claims. -/
def freshPC : RTCPeerConnection :=
  { senders := []
    signalingState := SignalingState.stable
    localDescription := none
    remoteDescription := none
    appliedCandidates := []
    pendingRemoteCandidates := [] }

/-- `pc.addTrack(track, stream)`: appends a sender carrying the track. -/
def RTCPeerConnection.addTrack (pc : RTCPeerConnection) (t : MediaStreamTrack) :
    RTCPeerConnection :=
  { pc with senders := pc.senders ++ [{ track := some t }] }

/-- The guard `pc.getSenders().some(s => s.track?.kind === k)` of the source. -/
def RTCPeerConnection.hasSenderOfKind (pc : RTCPeerConnection) (k : TrackKind) : Bool :=
  pc.senders.any fun s =>
    match s.track with
    | some t => t.kind == k
    | none => false

/-- Number of senders of `pc` whose track has kind `k`. -/
def senderCountOfKind (pc : RTCPeerConnection) (k : TrackKind) : Nat :=
  pc.senders.countP fun s =>
    match s.track with
    | some t => t.kind == k
    | none => false

/-- `pc.setLocalDescription(d)` with the platform's signaling-state rules:
an offer is acceptable from `stable` or `have-local-offer`, an answer only
from `have-remote-offer`, a rollback only from an offer state; any other
combination rejects (`none`). -/
def RTCPeerConnection.setLocalDescription (pc : RTCPeerConnection) (d : SessionDesc) :
    Option RTCPeerConnection :=
  match d.dtype, pc.signalingState with
  | DescType.offer, SignalingState.stable =>
      some { pc with localDescription := some d,
                     signalingState := SignalingState.haveLocalOffer }
  | DescType.offer, SignalingState.haveLocalOffer =>
      some { pc with localDescription := some d }
  | DescType.answer, SignalingState.haveRemoteOffer =>
      some { pc with localDescription := some d,
                     signalingState := SignalingState.stable }
  | DescType.rollback, SignalingState.haveLocalOffer =>
      some { pc with localDescription := none,
                     signalingState := SignalingState.stable }
  | DescType.rollback, SignalingState.haveRemoteOffer =>
      some { pc with remoteDescription := none,
                     signalingState := SignalingState.stable }
  | _, _ => none

/-- `pc.setRemoteDescription(d)` with the platform's signaling-state rules. -/
def RTCPeerConnection.setRemoteDescription (pc : RTCPeerConnection) (d : SessionDesc) :
    Option RTCPeerConnection :=
  match d.dtype, pc.signalingState with
  | DescType.offer, SignalingState.stable =>
      some { pc with remoteDescription := some d,
                     signalingState := SignalingState.haveRemoteOffer }
  | DescType.offer, SignalingState.haveRemoteOffer =>
      some { pc with remoteDescription := some d }
  | DescType.answer, SignalingState.haveLocalOffer =>
      some { pc with remoteDescription := some d,
                     signalingState := SignalingState.stable }
  | _, _ => none

/-- `pc.addIceCandidate(c)`: per the platform, succeeds only once the remote
description is set; otherwise the promise rejects with InvalidStateError —
the source neither awaits nor catches it, so the candidate is lost. -/
def RTCPeerConnection.addIceCandidate (pc : RTCPeerConnection) (c : Candidate) :
    Option RTCPeerConnection :=
  if pc.remoteDescription.isSome then
    some { pc with appliedCandidates := pc.appliedCandidates ++ [c] }
  else
    none

/-- `pc.createOffer()`: the SDP content is opaque to every claim. -/
def RTCPeerConnection.createOffer (_pc : RTCPeerConnection) : SessionDesc :=
  { dtype := DescType.offer, sdp := "sdp-offer" }

/-- `pc.createAnswer()`. -/
def RTCPeerConnection.createAnswer (_pc : RTCPeerConnection) : SessionDesc :=
  { dtype := DescType.answer, sdp := "sdp-answer" }

/-- The mutable record `peerConnections.current`, keyed by socket id. -/
abbrev PeerMap := List (String × RTCPeerConnection)

/-- Lookup `peerConnections.current[userId]`. -/
def findPC (m : PeerMap) (uid : String) : Option RTCPeerConnection :=
  match m with
  | [] => none
  | (k, pc) :: rest => if k = uid then some pc else findPC rest uid

/-- Write `peerConnections.current[userId] = pc` on an existing or new key. -/
def setPC (m : PeerMap) (uid : String) (pc : RTCPeerConnection) : PeerMap :=
  match m with
  | [] => [(uid, pc)]
  | (k, q) :: rest => if k = uid then (k, pc) :: rest else (k, q) :: setPC rest uid pc

/-- Track-attachment step of `getOrCreatePeerConnection` (source lines 511 to
524): read the first audio and video track of the local stream, compute the
"sender already carries a track of this kind" guards from the current
senders, then `addTrack` each kind at most once. -/
def attachLocalTracks (localStream : Option MediaStream) (pc : RTCPeerConnection) :
    RTCPeerConnection :=
  match localStream with
  | none => pc
  | some stream =>
    let audioTrack := stream.getAudioTracks.head?
    let videoTrack := stream.getVideoTracks.head?
    let audioAdded := pc.hasSenderOfKind TrackKind.audio
    let videoAdded := pc.hasSenderOfKind TrackKind.video
    let pc1 :=
      match audioTrack with
      | some t => if audioAdded then pc else pc.addTrack t
      | none => pc
    match videoTrack with
    | some t => if videoAdded then pc1 else pc1.addTrack t
    | none => pc1

/-- `getOrCreatePeerConnection(userId)` (source lines 474 to 546): return the
existing connection if present; otherwise construct a fresh one, attach the
local tracks guarded per kind, register callbacks (not state-observable
here), and store it in the registry. -/
def getOrCreatePeerConnection (localStream : Option MediaStream) (m : PeerMap)
    (userId : String) : RTCPeerConnection × PeerMap :=
  match findPC m userId with
  | some pc => (pc, m)
  | none =>
    let pc := attachLocalTracks localStream freshPC
    (pc, (userId, pc) :: m)

/-- Transport events the component emits on its sockets. -/
inductive SocketEvent
  | voiceOffer (target : String) (offer : SessionDesc)
  | voiceAnswer (target : String) (ans : SessionDesc)
  | joinVoiceRoom (roomId : String)
  | leaveVoice (roomId : String)
  | chatJoinRoom (roomId : String)
  | chatLeaveRoom (roomId : String)
  deriving DecidableEq, Repr

/-- The component state the modelled handlers read and write: the socket
handles from context (modelled by their presence), `roomId` from the route
params, the `isMicOn` React state, the local stream, the peer-connection
registry and the remote `<audio>` element refs (keys only). -/
structure ConfState where
  mySocketId : String
  audioSocketPresent : Bool
  chatSocketPresent : Bool
  roomId : Option String
  isMicOn : Bool
  localStream : Option MediaStream
  peerConnections : PeerMap
  remoteAudioRefs : List String
  deriving DecidableEq, Repr

/-- The rollback description literal `\x7b type: "rollback" \x7d` of source
line 569. -/
def rollbackDesc : SessionDesc :=
  { dtype := DescType.rollback, sdp := "" }

/-- `createOffer(userId)` (source lines 551 to 558): get or create the link,
create an offer, set it locally, then emit `voice-offer`.  A rejected
`setLocalDescription` aborts the async function before the emit; the
registry keeps the connection inserted by `getOrCreatePeerConnection`. -/
def createOffer (st : ConfState) (userId : String) : ConfState × List SocketEvent :=
  let res := getOrCreatePeerConnection st.localStream st.peerConnections userId
  let pc0 := res.1
  let m0 := res.2
  let offer := pc0.createOffer
  match pc0.setLocalDescription offer with
  | none => ({ st with peerConnections := m0 }, [])
  | some pc1 =>
      ({ st with peerConnections := setPC m0 userId pc1 },
       if st.audioSocketPresent then [SocketEvent.voiceOffer userId offer] else [])

/-- Handler of `audioSocket.on("user-joined")` (source lines 600 to 602):
unconditionally calls `createOffer(userId)` — the handler performs no
comparison between `mySocketId` and the joining peer's id. -/
def onUserJoined (st : ConfState) (userId : String) : ConfState × List SocketEvent :=
  createOffer st userId

/-- `handleReceiveOffer(from, offer)` (source lines 564 to 578): get or
create the link; when the signaling state is not `"stable"`, roll back
locally; apply the remote offer; create and set a local answer; emit
`voice-answer`.  Each awaited step that rejects aborts the rest, keeping the
mutations already applied to the stored connection. -/
def handleReceiveOffer (st : ConfState) (peerId : String) (offer : SessionDesc) :
    ConfState × List SocketEvent :=
  let res := getOrCreatePeerConnection st.localStream st.peerConnections peerId
  let pc0 := res.1
  let m0 := res.2
  let step1 :=
    if pc0.signalingState ≠ SignalingState.stable then
      pc0.setLocalDescription rollbackDesc
    else
      some pc0
  match step1 with
  | none => ({ st with peerConnections := m0 }, [])
  | some pc1 =>
      match pc1.setRemoteDescription offer with
      | none => ({ st with peerConnections := setPC m0 peerId pc1 }, [])
      | some pc2 =>
          let ans := pc2.createAnswer
          match pc2.setLocalDescription ans with
          | none => ({ st with peerConnections := setPC m0 peerId pc2 }, [])
          | some pc3 =>
              ({ st with peerConnections := setPC m0 peerId pc3 },
               if st.audioSocketPresent then [SocketEvent.voiceAnswer peerId ans] else [])

/-- `handleReceiveAnswer(from, answer)` (source lines 583 to 590): ignore
when no connection exists for the peer; apply the answer only when the
signaling state is `"have-local-offer"`. -/
def handleReceiveAnswer (st : ConfState) (peerId : String) (ans : SessionDesc) :
    ConfState :=
  match findPC st.peerConnections peerId with
  | none => st
  | some pc =>
      if pc.signalingState = SignalingState.haveLocalOffer then
        match pc.setRemoteDescription ans with
        | some pc2 => { st with peerConnections := setPC st.peerConnections peerId pc2 }
        | none => st
      else
        st

/-- Handler of `audioSocket.on("ice-candidate")` (source lines 612 to 617):
when a connection exists for the sender and the payload carries a candidate,
call `addIceCandidate` directly; otherwise do nothing.  The rejection of
`addIceCandidate` before the remote description is set is not handled, and
no queue is consulted or written. -/
def onIceCandidate (st : ConfState) (peerId : String) (candidate : Option Candidate) :
    ConfState :=
  match findPC st.peerConnections peerId, candidate with
  | some pc, some c =>
      match pc.addIceCandidate c with
      | some pc2 => { st with peerConnections := setPC st.peerConnections peerId pc2 }
      | none => st
  | _, _ => st

/-- Replace the `enabled` flag of the first audio track of a track list,
as the write `audioTrack.enabled = newEnabled` to
`localStream.getAudioTracks()[0]` does. -/
def setFirstAudioEnabled : List MediaStreamTrack → Bool → List MediaStreamTrack
  | [], _ => []
  | t :: ts, e =>
      if t.kind == TrackKind.audio then { t with enabled := e } :: ts
      else t :: setFirstAudioEnabled ts e

/-- The per-sender write of `toggleMic` (source lines 66 to 70): when the
sender carries an audio track, set that track's `enabled` flag. -/
def Sender.setAudioEnabled (s : Sender) (e : Bool) : Sender :=
  match s.track with
  | some t => if t.kind == TrackKind.audio then { track := some { t with enabled := e } } else s
  | none => s

/-- `toggleMic` (source lines 53 to 76): no-op without a local stream or
audio track; otherwise flip the track's `enabled` flag, mirror it in
`isMicOn`, and fan it out to every audio sender of every peer connection.
No media is reacquired and no connection is created or renegotiated. -/
def toggleMic (st : ConfState) : ConfState :=
  match st.localStream with
  | none => st
  | some stream =>
      match stream.getAudioTracks.head? with
      | none => st
      | some audioTrack =>
          let newEnabled := !audioTrack.enabled
          { st with
            localStream := some { tracks := setFirstAudioEnabled stream.tracks newEnabled }
            isMicOn := newEnabled
            peerConnections := st.peerConnections.map fun kv =>
              (kv.1, { kv.2 with senders := kv.2.senders.map fun s =>
                Sender.setAudioEnabled s newEnabled }) }

/-- `leaveVoiceRoom` (source lines 664 to 682): emit `leave-voice-room` when
the audio socket and room id are available (each emit is wrapped in
try/catch, so nothing throws), close and drop every peer connection, stop
every local track, release the remote audio elements.  The source keeps no
flag recording that the teardown already ran. -/
def leaveVoiceRoom (st : ConfState) : ConfState × List SocketEvent :=
  let evs :=
    match st.roomId with
    | some r => if st.audioSocketPresent then [SocketEvent.leaveVoice r] else []
    | none => []
  ({ st with
     peerConnections := []
     localStream := st.localStream.map fun s =>
       { tracks := s.tracks.map fun t => { t with stopped := true } }
     remoteAudioRefs := [] },
   evs)

/-- Outcome of the three `navigator.mediaDevices.getUserMedia` requests
`initMedia` can issue: the combined audio+video request, the video-only
retry and the audio-only retry.  `none` is a rejected request. -/
structure MediaEnv where
  combined : Option MediaStream
  videoOnly : Option MediaStream
  audioOnly : Option MediaStream
  deriving DecidableEq, Repr

/-- `initMedia` (source lines 197 to 233): use the combined stream when the
joint request succeeds; otherwise retry video-only and audio-only
independently; when both retries fail, log and return with no stream set;
otherwise build a `new MediaStream()` holding the first video track of the
video retry (if any) followed by the first audio track of the audio retry
(if any).  The returned value is the stream passed to `setLocalStream`
(`none` when it is never called). -/
def initMedia (env : MediaEnv) : Option MediaStream :=
  match env.combined with
  | some s => some s
  | none =>
      match env.videoOnly, env.audioOnly with
      | none, none => none
      | v, a =>
          let vtracks :=
            match v with
            | some vs => vs.getVideoTracks.head?.toList
            | none => []
          let atracks :=
            match a with
            | some sa => sa.getAudioTracks.head?.toList
            | none => []
          some { tracks := vtracks ++ atracks }

/-- Decision of the `mediaRecorder.ondataavailable` handler (source lines
317 to 325) on whether a finalized chunk is uploaded: `closureMicOn` is the
value of the `isMicOn` React state captured by the closure when the effect
run created this recorder (a JavaScript closure reads the render-scope
constant, not the current state); the blob must be present, non-empty and
at least 4000 bytes. -/
def dataAvailableUploads (closureMicOn : Bool) (blob : Option Nat) : Bool :=
  if !closureMicOn then false
  else
    match blob with
    | none => false
    | some size => if size == 0 then false else if size < 4000 then false else true

/-- A live `MediaRecorder` as the recorder effect sees it: the `isMicOn`
value its handlers closed over, and whether it is currently recording. -/
structure Recorder where
  closureMicOn : Bool
  recording : Bool
  deriving DecidableEq, Repr

/-- One re-run of the recorder effect caused by a change of `isMicOn`
(source lines 242 to 468): the cleanup of the previous run stops an active
recorder (source lines 454 to 463), which makes `MediaRecorder.stop` flush a
final `dataavailable` event handled by the OLD recorder's closure with the
chunk it had buffered; then the new body either creates a fresh recorder
(mic on) whose closure captures the new `isMicOn`, or suppresses further
capture (mic off, source lines 263 to 270).  Returns the recorder alive
after the run and whether the flushed chunk was uploaded. -/
def recorderEffectStep (isMicOn : Bool) (prev : Option Recorder) (buffered : Option Nat) :
    Option Recorder × Bool :=
  let flushUploaded :=
    match prev with
    | some r => if r.recording then dataAvailableUploads r.closureMicOn buffered else false
    | none => false
  let next :=
    if isMicOn then some { closureMicOn := isMicOn, recording := true } else none
  (next, flushUploaded)

/-- Guard of the audio-signaling effect (source lines 595 to 598): the body
runs only when the audio socket, the room id and the local stream are all
present; only then does it emit `join-voice-room` and register the
`user-joined`, `voice-offer`, `voice-answer`, `ice-candidate` and
`user-left` handlers. -/
def audioEffectActive (st : ConfState) : Bool :=
  st.audioSocketPresent && st.roomId.isSome && st.localStream.isSome

/-- Events emitted by one run of the audio-signaling effect body. -/
def audioEffectEvents (st : ConfState) : List SocketEvent :=
  if audioEffectActive st then
    match st.roomId with
    | some r => [SocketEvent.joinVoiceRoom r]
    | none => []
  else []

/-- Events emitted by one run of the chat effect body (source lines 151 to
192): guarded only by the chat socket and the room id, never by the local
stream. -/
def chatEffectEvents (st : ConfState) : List SocketEvent :=
  match st.roomId with
  | some r => if st.chatSocketPresent then [SocketEvent.chatJoinRoom r] else []
  | none => []

/-- Component state right after mount: the registry starts empty and the
local stream is whatever `initMedia` produced. -/
def mountState (env : MediaEnv) (audioP chatP : Bool) (rid : Option String)
    (myId : String) : ConfState :=
  { mySocketId := myId
    audioSocketPresent := audioP
    chatSocketPresent := chatP
    roomId := rid
    isMicOn := true
    localStream := initMedia env
    peerConnections := []
    remoteAudioRefs := [] }

/-- An incoming voice-signaling message. -/
inductive VoiceMsg
  | userJoined (uid : String)
  | offerMsg (peerId : String) (d : SessionDesc)
  | answerMsg (peerId : String) (d : SessionDesc)
  | iceMsg (peerId : String) (c : Option Candidate)
  deriving DecidableEq, Repr

/-- Dispatch of one incoming voice message: when the audio-signaling effect
never registered its handlers (its guard failed), no handler runs and the
state is untouched; otherwise the corresponding source handler runs. -/
def dispatchVoice (registered : Bool) (st : ConfState) (msg : VoiceMsg) :
    ConfState × List SocketEvent :=
  if !registered then (st, [])
  else
    match msg with
    | VoiceMsg.userJoined uid => onUserJoined st uid
    | VoiceMsg.offerMsg peerId d => handleReceiveOffer st peerId d
    | VoiceMsg.answerMsg peerId d => (handleReceiveAnswer st peerId d, [])
    | VoiceMsg.iceMsg peerId c => (onIceCandidate st peerId c, [])

/-- Run a sequence of incoming voice messages through the dispatcher. -/
def runVoiceMsgs (registered : Bool) (st : ConfState) : List VoiceMsg → ConfState
  | [] => st
  | msg :: rest => runVoiceMsgs registered (dispatchVoice registered st msg).1 rest

/-- Concrete audio track used by witnesses. -/
def trackA : MediaStreamTrack := { kind := TrackKind.audio, enabled := true, stopped := false }

/-- Concrete video track used by witnesses. -/
def trackV : MediaStreamTrack := { kind := TrackKind.video, enabled := true, stopped := false }

/-- Concrete local stream used by witnesses. -/
def streamEx : MediaStream := { tracks := [trackA, trackV] }

theorem findPC_cons_self (m : PeerMap) (uid : String) (pc : RTCPeerConnection) :
    findPC ((uid, pc) :: m) uid = some pc := by
  simp [findPC]

theorem findPC_setPC_self (m : PeerMap) (uid : String) (pc : RTCPeerConnection) :
    findPC (setPC m uid pc) uid = some pc := by
  induction m with
  | nil => simp [setPC, findPC]
  | cons kv rest ih =>
      obtain ⟨k, q⟩ := kv
      by_cases h : k = uid
      · simp [setPC, findPC, h]
      · simp [setPC, findPC, h, ih]

theorem findPC_none_not_mem (m : PeerMap) (uid : String) (h : findPC m uid = none) :
    uid ∉ m.map Prod.fst := by
  induction m with
  | nil => simp
  | cons kv rest ih =>
      obtain ⟨k, q⟩ := kv
      by_cases hk : k = uid
      · simp [findPC, hk] at h
      · simp only [findPC, if_neg hk] at h
        simp only [List.map_cons, List.mem_cons]
        rintro (rfl | hmem)
        · exact hk rfl
        · exact ih h hmem

theorem hasSenderOfKind_addTrack (pc : RTCPeerConnection) (t : MediaStreamTrack)
    (k : TrackKind) :
    (pc.addTrack t).hasSenderOfKind k = (pc.hasSenderOfKind k || (t.kind == k)) := by
  simp [RTCPeerConnection.addTrack, RTCPeerConnection.hasSenderOfKind]

theorem kind_of_head_getAudioTracks (s : MediaStream) (t : MediaStreamTrack)
    (h : s.getAudioTracks.head? = some t) : t.kind = TrackKind.audio := by
  have hmem : t ∈ s.getAudioTracks := by
    cases hl : s.getAudioTracks with
    | nil => simp [hl] at h
    | cons a rest => simp [hl] at h; simp [hl, h]
  have := List.mem_filter.mp hmem
  simpa using this.2

theorem kind_of_head_getVideoTracks (s : MediaStream) (t : MediaStreamTrack)
    (h : s.getVideoTracks.head? = some t) : t.kind = TrackKind.video := by
  have hmem : t ∈ s.getVideoTracks := by
    cases hl : s.getVideoTracks with
    | nil => simp [hl] at h
    | cons a rest => simp [hl] at h; simp [hl, h]
  have := List.mem_filter.mp hmem
  simpa using this.2

theorem freshPC_no_sender (k : TrackKind) : freshPC.hasSenderOfKind k = false := by
  simp [freshPC, RTCPeerConnection.hasSenderOfKind]

theorem attachLocalTracks_idem (ls : Option MediaStream) (pc : RTCPeerConnection) :
    attachLocalTracks ls (attachLocalTracks ls pc) = attachLocalTracks ls pc := by
  cases ls with
  | none => rfl
  | some stream =>
      rcases hga : stream.getAudioTracks.head? with _ | ta <;>
        rcases hgv : stream.getVideoTracks.head? with _ | tv
      · simp [attachLocalTracks, hga, hgv]
      · have htv := kind_of_head_getVideoTracks stream tv hgv
        by_cases hV : pc.hasSenderOfKind TrackKind.video
        · simp [attachLocalTracks, hga, hgv, hV]
        · simp [attachLocalTracks, hga, hgv, hV, hasSenderOfKind_addTrack, htv]
      · have hta := kind_of_head_getAudioTracks stream ta hga
        by_cases hA : pc.hasSenderOfKind TrackKind.audio
        · simp [attachLocalTracks, hga, hgv, hA]
        · simp [attachLocalTracks, hga, hgv, hA, hasSenderOfKind_addTrack, hta]
      · have hta := kind_of_head_getAudioTracks stream ta hga
        have htv := kind_of_head_getVideoTracks stream tv hgv
        by_cases hA : pc.hasSenderOfKind TrackKind.audio <;>
          by_cases hV : pc.hasSenderOfKind TrackKind.video <;>
          simp [attachLocalTracks, hga, hgv, hA, hV, hasSenderOfKind_addTrack, hta, htv]

theorem attach_fresh_counts (ls : Option MediaStream) :
    senderCountOfKind (attachLocalTracks ls freshPC) TrackKind.audio ≤ 1
    ∧ senderCountOfKind (attachLocalTracks ls freshPC) TrackKind.video ≤ 1 := by
  cases ls with
  | none => simp [attachLocalTracks, senderCountOfKind, freshPC]
  | some stream =>
      rcases hga : stream.getAudioTracks.head? with _ | ta <;>
        rcases hgv : stream.getVideoTracks.head? with _ | tv
      · simp [attachLocalTracks, hga, hgv, senderCountOfKind, freshPC]
      · have htv := kind_of_head_getVideoTracks stream tv hgv
        simp [attachLocalTracks, hga, hgv, senderCountOfKind,
          RTCPeerConnection.addTrack, RTCPeerConnection.hasSenderOfKind, freshPC, htv]
      · have hta := kind_of_head_getAudioTracks stream ta hga
        simp [attachLocalTracks, hga, hgv, senderCountOfKind,
          RTCPeerConnection.addTrack, RTCPeerConnection.hasSenderOfKind, freshPC, hta]
      · have hta := kind_of_head_getAudioTracks stream ta hga
        have htv := kind_of_head_getVideoTracks stream tv hgv
        simp [attachLocalTracks, hga, hgv, senderCountOfKind,
          RTCPeerConnection.addTrack, RTCPeerConnection.hasSenderOfKind, freshPC, hta, htv]

/-- C1: `getOrCreatePeerConnection(peerId)` is idempotent — a second call in
sequence returns the same connection and leaves the registry unchanged; the
registry keeps at most one link per peer id; a freshly created link carries
at most one sender per track kind; and the "sender already carries a track
of this kind" guard makes re-attaching the local tracks a no-op. -/
theorem getOrCreate_idempotent_single_link_single_sender
    (ls : Option MediaStream) (m : PeerMap) (uid : String) :
    (getOrCreatePeerConnection ls (getOrCreatePeerConnection ls m uid).2 uid).1
        = (getOrCreatePeerConnection ls m uid).1
    ∧ (getOrCreatePeerConnection ls (getOrCreatePeerConnection ls m uid).2 uid).2
        = (getOrCreatePeerConnection ls m uid).2
    ∧ ((m.map Prod.fst).Nodup →
        (((getOrCreatePeerConnection ls m uid).2).map Prod.fst).Nodup)
    ∧ (findPC m uid = none →
        senderCountOfKind (getOrCreatePeerConnection ls m uid).1 TrackKind.audio ≤ 1
        ∧ senderCountOfKind (getOrCreatePeerConnection ls m uid).1 TrackKind.video ≤ 1)
    ∧ (∀ pc : RTCPeerConnection,
        attachLocalTracks ls (attachLocalTracks ls pc) = attachLocalTracks ls pc) := by
  cases hfind : findPC m uid with
  | some pc =>
      refine ⟨?_, ?_, ?_, ?_, fun pc2 => attachLocalTracks_idem ls pc2⟩
      · simp [getOrCreatePeerConnection, hfind]
      · simp [getOrCreatePeerConnection, hfind]
      · intro h; simpa [getOrCreatePeerConnection, hfind] using h
      · intro h; simp [hfind] at h
  | none =>
      refine ⟨?_, ?_, ?_, ?_, fun pc2 => attachLocalTracks_idem ls pc2⟩
      · simp [getOrCreatePeerConnection, hfind, findPC_cons_self]
      · simp [getOrCreatePeerConnection, hfind, findPC_cons_self]
      · intro h
        simp only [getOrCreatePeerConnection, hfind, List.map_cons]
        exact List.Nodup.cons (findPC_none_not_mem m uid hfind) h
      · intro _
        simpa [getOrCreatePeerConnection, hfind] using attach_fresh_counts ls

theorem getOrCreate_witness :
    (getOrCreatePeerConnection (some streamEx)
        (getOrCreatePeerConnection (some streamEx) [] "p1").2 "p1").1
      = (getOrCreatePeerConnection (some streamEx) [] "p1").1
    ∧ (((getOrCreatePeerConnection (some streamEx) [] "p1").2).map Prod.fst).Nodup
    ∧ senderCountOfKind (getOrCreatePeerConnection (some streamEx) [] "p1").1
        TrackKind.audio ≤ 1 := by
  have h := getOrCreate_idempotent_single_link_single_sender (some streamEx) [] "p1"
  exact ⟨h.1, h.2.2.1 (by simp), (h.2.2.2.1 rfl).1⟩

/-- Concrete link in `have-local-offer` state (this side has offered and
its remote description is not yet set), used by witnesses. -/
def pcGlare : RTCPeerConnection :=
  { freshPC with
    signalingState := SignalingState.haveLocalOffer
    localDescription := some { dtype := DescType.offer, sdp := "sdp-offer" } }

/-- Concrete component state used by witnesses: mic on, local stream with
one audio and one video track, one link to "p2" in `have-local-offer`. -/
def stGlare : ConfState :=
  { mySocketId := "me"
    audioSocketPresent := true
    chatSocketPresent := true
    roomId := some "room1"
    isMicOn := true
    localStream := some streamEx
    peerConnections := [("p2", pcGlare)]
    remoteAudioRefs := [] }

/-- Concrete incoming offer used by witnesses. -/
def offerEx : SessionDesc := { dtype := DescType.offer, sdp := "remote-offer" }

/-- Concrete incoming answer used by witnesses. -/
def ansEx : SessionDesc := { dtype := DescType.answer, sdp := "remote-answer" }

/-- Concrete ICE candidate used by witnesses. -/
def candEx : Candidate := { payload := "cand-1" }

/-- C2: when an offer arrives for a link whose signaling state is not
stable (glare), the handler rolls back locally, applies the incoming
offer, sets a local answer — ending stable with the incoming offer as the
remote description and its own answer as the local one — and transmits
exactly one `voice-answer`; the offer is never rejected. -/
theorem handleReceiveOffer_glare_rolls_back_and_answers
    (st : ConfState) (peerId : String) (offer : SessionDesc)
    (pc0 : RTCPeerConnection)
    (hfind : findPC st.peerConnections peerId = some pc0)
    (hglare : pc0.signalingState ≠ SignalingState.stable)
    (hoffer : offer.dtype = DescType.offer)
    (hsock : st.audioSocketPresent = true) :
    ((findPC (handleReceiveOffer st peerId offer).1.peerConnections peerId).map
        fun pc => (pc.signalingState, pc.remoteDescription, pc.localDescription))
      = some (SignalingState.stable, some offer,
              some { dtype := DescType.answer, sdp := "sdp-answer" })
    ∧ (handleReceiveOffer st peerId offer).2
      = [SocketEvent.voiceAnswer peerId { dtype := DescType.answer, sdp := "sdp-answer" }] := by
  cases hss : pc0.signalingState with
  | stable => exact absurd hss hglare
  | haveLocalOffer =>
      constructor <;>
        simp [handleReceiveOffer, getOrCreatePeerConnection, hfind, hss, rollbackDesc,
          RTCPeerConnection.setLocalDescription, RTCPeerConnection.setRemoteDescription,
          RTCPeerConnection.createAnswer, hoffer, hsock, findPC_setPC_self]
  | haveRemoteOffer =>
      constructor <;>
        simp [handleReceiveOffer, getOrCreatePeerConnection, hfind, hss, rollbackDesc,
          RTCPeerConnection.setLocalDescription, RTCPeerConnection.setRemoteDescription,
          RTCPeerConnection.createAnswer, hoffer, hsock, findPC_setPC_self]

theorem handleReceiveOffer_witness :
    ((findPC (handleReceiveOffer stGlare "p2" offerEx).1.peerConnections "p2").map
        fun pc => (pc.signalingState, pc.remoteDescription, pc.localDescription))
      = some (SignalingState.stable, some offerEx,
              some { dtype := DescType.answer, sdp := "sdp-answer" })
    ∧ (handleReceiveOffer stGlare "p2" offerEx).2
      = [SocketEvent.voiceAnswer "p2" { dtype := DescType.answer, sdp := "sdp-answer" }] := by
  exact handleReceiveOffer_glare_rolls_back_and_answers stGlare "p2" offerEx pcGlare
    (by simp [stGlare, findPC]) (by decide) rfl rfl

/-- C9: an incoming answer is applied, moving the link to stable, exactly
when the link exists and its signaling state is `have-local-offer`; with no
link, or in any other state, the whole component state is unchanged. -/
theorem handleReceiveAnswer_applies_only_have_local_offer
    (st : ConfState) (peerId : String) (ans : SessionDesc)
    (hans : ans.dtype = DescType.answer) :
    (findPC st.peerConnections peerId = none → handleReceiveAnswer st peerId ans = st)
    ∧ (∀ pc, findPC st.peerConnections peerId = some pc →
        pc.signalingState ≠ SignalingState.haveLocalOffer →
        handleReceiveAnswer st peerId ans = st)
    ∧ (∀ pc, findPC st.peerConnections peerId = some pc →
        pc.signalingState = SignalingState.haveLocalOffer →
        (findPC (handleReceiveAnswer st peerId ans).peerConnections peerId).map
            (fun q => (q.signalingState, q.remoteDescription))
          = some (SignalingState.stable, some ans)) := by
  refine ⟨?_, ?_, ?_⟩
  · intro h
    simp [handleReceiveAnswer, h]
  · intro pc h hne
    simp [handleReceiveAnswer, h, hne]
  · intro pc h he
    simp [handleReceiveAnswer, h, he, RTCPeerConnection.setRemoteDescription, hans,
      findPC_setPC_self]

theorem handleReceiveAnswer_witness :
    handleReceiveAnswer stGlare "nobody" ansEx = stGlare
    ∧ (findPC (handleReceiveAnswer stGlare "p2" ansEx).peerConnections "p2").map
        (fun q => (q.signalingState, q.remoteDescription))
      = some (SignalingState.stable, some ansEx) := by
  have h1 := handleReceiveAnswer_applies_only_have_local_offer stGlare "nobody" ansEx rfl
  have h2 := handleReceiveAnswer_applies_only_have_local_offer stGlare "p2" ansEx rfl
  exact ⟨h1.1 (by simp [stGlare, findPC]), h2.2.2 pcGlare (by simp [stGlare, findPC]) rfl⟩

/-- C3 counterexample: a candidate arriving for "p2" strictly before its
remote description is set is dropped outright: the handler leaves the whole
component state unchanged, and in particular nothing is appended to the
pending-candidate queue the claim describes — no buffering happens. -/
theorem iceCandidate_early_candidate_dropped_cex :
    (findPC stGlare.peerConnections "p2").map (fun pc => pc.remoteDescription) = some none
    ∧ onIceCandidate stGlare "p2" (some candEx) = stGlare
    ∧ (findPC (onIceCandidate stGlare "p2" (some candEx)).peerConnections "p2").map
        (fun pc => pc.pendingRemoteCandidates) = some []
    ∧ (findPC (onIceCandidate stGlare "p2" (some candEx)).peerConnections "p2").map
        (fun pc => pc.appliedCandidates) = some [] := by
  refine ⟨by decide, by decide, by decide, by decide⟩

/-- C3 amended: the handler keeps no queue.  A candidate for a peer with no
link, or one arriving before the link's remote description is set, is
discarded with the state unchanged; once the remote description is set,
candidates are applied immediately in arrival order; the pending queue the
specification describes is never written. -/
theorem iceCandidate_discard_or_apply_no_queue
    (st : ConfState) (peerId : String) (c : Candidate) :
    (findPC st.peerConnections peerId = none → onIceCandidate st peerId (some c) = st)
    ∧ (∀ pc, findPC st.peerConnections peerId = some pc → pc.remoteDescription = none →
        onIceCandidate st peerId (some c) = st)
    ∧ (∀ pc, findPC st.peerConnections peerId = some pc → pc.remoteDescription.isSome →
        (findPC (onIceCandidate st peerId (some c)).peerConnections peerId).map
            (fun q => q.appliedCandidates) = some (pc.appliedCandidates ++ [c]))
    ∧ ((findPC (onIceCandidate st peerId (some c)).peerConnections peerId).map
          (fun q => q.pendingRemoteCandidates)
        = (findPC st.peerConnections peerId).map (fun q => q.pendingRemoteCandidates)) := by
  refine ⟨?_, ?_, ?_, ?_⟩
  · intro h
    simp [onIceCandidate, h]
  · intro pc h hrd
    simp [onIceCandidate, h, RTCPeerConnection.addIceCandidate, hrd]
  · intro pc h hrd
    simp [onIceCandidate, h, RTCPeerConnection.addIceCandidate, hrd, findPC_setPC_self]
  · cases h : findPC st.peerConnections peerId with
    | none => simp [onIceCandidate, h]
    | some pc =>
        cases hrd : pc.remoteDescription.isSome
        · simp [onIceCandidate, h, RTCPeerConnection.addIceCandidate, hrd]
        · simp [onIceCandidate, h, RTCPeerConnection.addIceCandidate, hrd, findPC_setPC_self]

theorem iceCandidate_witness :
    onIceCandidate stGlare "nobody" (some candEx) = stGlare
    ∧ (findPC (onIceCandidate
          { stGlare with peerConnections :=
              [("p2", { pcGlare with
                  remoteDescription := some ansEx,
                  signalingState := SignalingState.stable })] }
          "p2" (some candEx)).peerConnections "p2").map
        (fun q => q.appliedCandidates) = some [candEx] := by
  have h1 := iceCandidate_discard_or_apply_no_queue stGlare "nobody" candEx
  have h2 := iceCandidate_discard_or_apply_no_queue
    { stGlare with peerConnections :=
        [("p2", { pcGlare with
            remoteDescription := some ansEx,
            signalingState := SignalingState.stable })] } "p2" candEx
  refine ⟨h1.1 (by simp [stGlare, findPC]), ?_⟩
  have h3 := h2.2.2.1
    ({ pcGlare with
        remoteDescription := some ansEx,
        signalingState := SignalingState.stable }) (by decide) (by decide)
  simpa [pcGlare, freshPC] using h3

theorem stopMap_idem (l : List MediaStreamTrack) :
    ((l.map fun t => { t with stopped := true }).map fun t => { t with stopped := true })
      = l.map fun t => { t with stopped := true } := by
  induction l with
  | nil => rfl
  | cons t ts ih =>
      simp only [List.map_cons, ih]

/-- C4 counterexample: on a live session, running the teardown twice emits a
departure event on each invocation — two `leave-voice-room` emissions in
total, not exactly one; the source keeps no single-shot flag. -/
theorem leave_teardown_double_emit_cex :
    (leaveVoiceRoom stGlare).2 = [SocketEvent.leaveVoice "room1"]
    ∧ (leaveVoiceRoom (leaveVoiceRoom stGlare).1).2 = [SocketEvent.leaveVoice "room1"] := by
  exact ⟨by decide, by decide⟩

/-- C4 amended: the teardown never throws (every emit and close is wrapped
in try/catch, so the modelled function is total) and a second invocation is
a no-op on the component state — the registry and the remote-audio refs are
already empty and the tracks already stopped — but each invocation emits its
own departure event: double invocation double-emits, as no single-shot flag
guards the emission. -/
theorem leaveVoiceRoom_state_idempotent_but_double_emits
    (st : ConfState) (r : String)
    (hroom : st.roomId = some r) (hsock : st.audioSocketPresent = true) :
    (leaveVoiceRoom st).2 = [SocketEvent.leaveVoice r]
    ∧ (leaveVoiceRoom (leaveVoiceRoom st).1).2 = [SocketEvent.leaveVoice r]
    ∧ (leaveVoiceRoom (leaveVoiceRoom st).1).1 = (leaveVoiceRoom st).1
    ∧ (leaveVoiceRoom st).1.peerConnections = []
    ∧ (leaveVoiceRoom st).1.remoteAudioRefs = [] := by
  refine ⟨?_, ?_, ?_, rfl, rfl⟩
  · simp [leaveVoiceRoom, hroom, hsock]
  · simp [leaveVoiceRoom, hroom, hsock]
  · cases hls : st.localStream with
    | none => simp [leaveVoiceRoom, hroom, hsock, hls]
    | some s => simp [leaveVoiceRoom, hroom, hsock, hls, stopMap_idem]

theorem leaveVoiceRoom_witness :
    (leaveVoiceRoom (leaveVoiceRoom stGlare).1).1 = (leaveVoiceRoom stGlare).1
    ∧ (leaveVoiceRoom stGlare).1.peerConnections = [] := by
  have h := leaveVoiceRoom_state_idempotent_but_double_emits stGlare "room1" rfl rfl
  exact ⟨h.2.2.1, h.2.2.2.1⟩

/-- Concrete state whose own transport id "a" sorts strictly below the
joining peer's id "b". -/
def stSmallId : ConfState :=
  { mySocketId := "a"
    audioSocketPresent := true
    chatSocketPresent := true
    roomId := some "room1"
    isMicOn := true
    localStream := none
    peerConnections := []
    remoteAudioRefs := [] }

/-- C5 counterexample: the local client's transport-assigned id "a" sorts
strictly below the joining peer's id "b", so under the claimed tie-break
this client must not initiate; yet its user-joined handler emits an offer
to "b" — the handler performs no identifier comparison at all. -/
theorem tiebreak_rule_missing_cex :
    ("a" < "b")
    ∧ (onUserJoined stSmallId "b").2
        = [SocketEvent.voiceOffer "b" { dtype := DescType.offer, sdp := "sdp-offer" }] := by
  refine ⟨?_, by decide⟩
  rw [String.lt_iff_toList_lt]
  decide

theorem attach_signalingState (ls : Option MediaStream) (pc : RTCPeerConnection) :
    (attachLocalTracks ls pc).signalingState = pc.signalingState := by
  cases ls with
  | none => rfl
  | some stream =>
      rcases hga : stream.getAudioTracks.head? with _ | ta <;>
        rcases hgv : stream.getVideoTracks.head? with _ | tv <;>
        by_cases hA : pc.hasSenderOfKind TrackKind.audio <;>
        by_cases hV : pc.hasSenderOfKind TrackKind.video <;>
        simp [attachLocalTracks, hga, hgv, hA, hV, RTCPeerConnection.addTrack]

/-- C5 amended: when a `user-joined` event arrives for a peer with no
existing link, the handler unconditionally creates the link, moves it to
`have-local-offer` and emits exactly one offer to that peer — regardless of
how the local connection identifier compares to the peer's; the emitted
events do not depend on the local identifier at all.  Both sides of a pair
therefore offer, and the resulting glare is resolved by the rollback in the
offer handler, not by an identifier tie-break. -/
theorem userJoined_offers_unconditionally
    (st : ConfState) (uid : String)
    (hsock : st.audioSocketPresent = true)
    (hnew : findPC st.peerConnections uid = none) :
    (onUserJoined st uid).2
      = [SocketEvent.voiceOffer uid { dtype := DescType.offer, sdp := "sdp-offer" }]
    ∧ ((findPC (onUserJoined st uid).1.peerConnections uid).map
        fun pc => pc.signalingState) = some SignalingState.haveLocalOffer
    ∧ (∀ otherId : String,
        (onUserJoined { st with mySocketId := otherId } uid).2 = (onUserJoined st uid).2) := by
  have hstable : (attachLocalTracks st.localStream freshPC).signalingState
      = SignalingState.stable := by
    rw [attach_signalingState]
    rfl
  refine ⟨?_, ?_, ?_⟩
  · simp [onUserJoined, createOffer, getOrCreatePeerConnection, hnew,
      RTCPeerConnection.createOffer, RTCPeerConnection.setLocalDescription, hstable, hsock]
  · simp only [onUserJoined, createOffer, getOrCreatePeerConnection, hnew,
      RTCPeerConnection.createOffer, RTCPeerConnection.setLocalDescription, hstable]
    rw [findPC_setPC_self]
    rfl
  · intro otherId
    dsimp only [onUserJoined, createOffer]
    cases (getOrCreatePeerConnection st.localStream st.peerConnections uid).1.setLocalDescription
        (getOrCreatePeerConnection st.localStream st.peerConnections uid).1.createOffer <;> rfl

theorem userJoined_witness :
    (onUserJoined stSmallId "b").2
      = [SocketEvent.voiceOffer "b" { dtype := DescType.offer, sdp := "sdp-offer" }]
    ∧ ((findPC (onUserJoined stSmallId "b").1.peerConnections "b").map
        fun pc => pc.signalingState) = some SignalingState.haveLocalOffer := by
  have h := userJoined_offers_unconditionally stSmallId "b" rfl rfl
  exact ⟨h.1, h.2.1⟩

/-- Enabled flags of the audio-sender tracks of a sender list. -/
def audioSenderFlagsOfSenders : List Sender → List Bool
  | [] => []
  | s :: rest =>
      match s.track with
      | some t =>
          if t.kind == TrackKind.audio then t.enabled :: audioSenderFlagsOfSenders rest
          else audioSenderFlagsOfSenders rest
      | none => audioSenderFlagsOfSenders rest

/-- Enabled flags of the audio-sender tracks across every peer connection. -/
def audioSenderFlags : PeerMap → List Bool
  | [] => []
  | kv :: rest => audioSenderFlagsOfSenders kv.2.senders ++ audioSenderFlags rest

theorem audioFlags_after_set (senders : List Sender) (e : Bool) :
    ∀ b ∈ audioSenderFlagsOfSenders (senders.map fun s => Sender.setAudioEnabled s e),
      b = e := by
  induction senders with
  | nil => simp [audioSenderFlagsOfSenders]
  | cons s rest ih =>
      cases hs : s.track with
      | none =>
          simpa [Sender.setAudioEnabled, hs, audioSenderFlagsOfSenders] using ih
      | some t =>
          by_cases hk : t.kind = TrackKind.audio
          · simpa [Sender.setAudioEnabled, hs, hk, audioSenderFlagsOfSenders] using ih
          · simpa [Sender.setAudioEnabled, hs, hk, audioSenderFlagsOfSenders] using ih

theorem audioFlags_after_set_map (m : PeerMap) (e : Bool) :
    ∀ b ∈ audioSenderFlags (m.map fun kv =>
      (kv.1, { kv.2 with senders := kv.2.senders.map fun s => Sender.setAudioEnabled s e })),
      b = e := by
  induction m with
  | nil => simp [audioSenderFlags]
  | cons kv rest ih =>
      intro b hb
      simp only [List.map_cons, audioSenderFlags, List.mem_append] at hb
      rcases hb with hb | hb
      · exact audioFlags_after_set kv.2.senders e b hb
      · exact ih b hb

theorem filterAudio_setFirstAudioEnabled (l : List MediaStreamTrack) (e : Bool) :
    (setFirstAudioEnabled l e).filter (fun t => t.kind == TrackKind.audio)
      = match l.filter (fun t => t.kind == TrackKind.audio) with
        | [] => []
        | t :: ts => { t with enabled := e } :: ts := by
  induction l with
  | nil => rfl
  | cons t ts ih =>
      by_cases h : t.kind = TrackKind.audio
      · simp [setFirstAudioEnabled, h]
      · simp [setFirstAudioEnabled, h, ih]

theorem setFirstAudioEnabled_kinds (l : List MediaStreamTrack) (e : Bool) :
    (setFirstAudioEnabled l e).map (fun t => t.kind) = l.map fun t => t.kind := by
  induction l with
  | nil => rfl
  | cons t ts ih =>
      by_cases h : t.kind = TrackKind.audio <;> simp [setFirstAudioEnabled, h, ih]

theorem peerMap_toggle_fst (m : PeerMap) (e : Bool) :
    ((m.map fun kv =>
      (kv.1, { kv.2 with senders := kv.2.senders.map fun s => Sender.setAudioEnabled s e })).map
        Prod.fst) = m.map Prod.fst := by
  induction m with
  | nil => rfl
  | cons kv rest ih => simp [ih]

theorem peerMap_toggle_signaling (m : PeerMap) (e : Bool) :
    ((m.map fun kv =>
      (kv.1, { kv.2 with senders := kv.2.senders.map fun s => Sender.setAudioEnabled s e })).map
        fun kv => kv.2.signalingState) = m.map fun kv => kv.2.signalingState := by
  induction m with
  | nil => rfl
  | cons kv rest ih => simp [ih]

/-- C6: with a local stream carrying an audio track, toggling the mic twice
flips the track's `enabled` flag and restores it, each toggle fans the new
value out to every audio sender of every existing peer connection, and
neither toggle creates or removes a peer connection, changes any signaling
state, or reacquires media (the track list keeps the same kinds). -/
theorem toggleMic_fanout_no_new_links_no_renegotiation
    (st : ConfState) (stream : MediaStream) (t0 : MediaStreamTrack)
    (hls : st.localStream = some stream)
    (hhead : stream.getAudioTracks.head? = some t0) :
    (toggleMic st).isMicOn = !t0.enabled
    ∧ (∀ b ∈ audioSenderFlags (toggleMic st).peerConnections, b = !t0.enabled)
    ∧ (toggleMic st).peerConnections.map Prod.fst = st.peerConnections.map Prod.fst
    ∧ ((toggleMic st).peerConnections.map fun kv => kv.2.signalingState)
        = (st.peerConnections.map fun kv => kv.2.signalingState)
    ∧ ((toggleMic st).localStream.map fun s => s.tracks.map fun t => t.kind)
        = (st.localStream.map fun s => s.tracks.map fun t => t.kind)
    ∧ ((toggleMic (toggleMic st)).localStream.bind fun s =>
        (s.getAudioTracks.head?).map fun t => t.enabled) = some t0.enabled
    ∧ (toggleMic (toggleMic st)).peerConnections.map Prod.fst
        = st.peerConnections.map Prod.fst
    ∧ ((toggleMic (toggleMic st)).peerConnections.map fun kv => kv.2.signalingState)
        = (st.peerConnections.map fun kv => kv.2.signalingState) := by
  have h1 : toggleMic st = { st with
      localStream := some { tracks := setFirstAudioEnabled stream.tracks (!t0.enabled) }
      isMicOn := !t0.enabled
      peerConnections := st.peerConnections.map fun kv =>
        (kv.1, { kv.2 with senders := kv.2.senders.map fun s =>
          Sender.setAudioEnabled s (!t0.enabled) }) } := by
    simp [toggleMic, hls, hhead]
  obtain ⟨rest, hfilter⟩ : ∃ rest, stream.getAudioTracks = t0 :: rest := by
    cases hf : stream.getAudioTracks with
    | nil => rw [hf] at hhead; cases hhead
    | cons a r =>
        rw [hf] at hhead
        simp at hhead
        exact ⟨r, by rw [hhead]⟩
  have hfilter2 : stream.tracks.filter (fun t => t.kind == TrackKind.audio) = t0 :: rest :=
    hfilter
  have hstream1 :
      (MediaStream.mk (setFirstAudioEnabled stream.tracks (!t0.enabled))).getAudioTracks
        = ({ t0 with enabled := !t0.enabled } : MediaStreamTrack) :: rest := by
    show (setFirstAudioEnabled stream.tracks (!t0.enabled)).filter
        (fun t => t.kind == TrackKind.audio) = _
    rw [filterAudio_setFirstAudioEnabled, hfilter2]
  have hhead1 :
      (MediaStream.mk (setFirstAudioEnabled stream.tracks (!t0.enabled))).getAudioTracks.head?
        = some ({ t0 with enabled := !t0.enabled } : MediaStreamTrack) := by
    rw [hstream1]
    rfl
  have h2 : toggleMic (toggleMic st) = { st with
      localStream := some { tracks :=
        (setFirstAudioEnabled (setFirstAudioEnabled stream.tracks (!t0.enabled)) t0.enabled) }
      isMicOn := t0.enabled
      peerConnections := (st.peerConnections.map fun kv =>
          (kv.1, { kv.2 with senders := kv.2.senders.map fun s =>
            Sender.setAudioEnabled s (!t0.enabled) })).map fun kv =>
          (kv.1, { kv.2 with senders := kv.2.senders.map fun s =>
            Sender.setAudioEnabled s t0.enabled }) } := by
    rw [h1]
    simp [toggleMic, hhead1]
  have hstream2 :
      (MediaStream.mk (setFirstAudioEnabled
          (setFirstAudioEnabled stream.tracks (!t0.enabled)) t0.enabled)).getAudioTracks
        = ({ t0 with enabled := t0.enabled } : MediaStreamTrack) :: rest := by
    show (setFirstAudioEnabled (setFirstAudioEnabled stream.tracks (!t0.enabled))
        t0.enabled).filter (fun t => t.kind == TrackKind.audio) = _
    rw [filterAudio_setFirstAudioEnabled]
    have : (setFirstAudioEnabled stream.tracks (!t0.enabled)).filter
        (fun t => t.kind == TrackKind.audio)
          = ({ t0 with enabled := !t0.enabled } : MediaStreamTrack) :: rest := hstream1
    rw [this]
  refine ⟨?_, ?_, ?_, ?_, ?_, ?_, ?_, ?_⟩
  · rw [h1]
  · rw [h1]
    exact audioFlags_after_set_map st.peerConnections (!t0.enabled)
  · rw [h1]
    exact peerMap_toggle_fst st.peerConnections (!t0.enabled)
  · rw [h1]
    exact peerMap_toggle_signaling st.peerConnections (!t0.enabled)
  · rw [h1, hls]
    simp [setFirstAudioEnabled_kinds]
  · rw [h2]
    simp only [Option.some_bind]
    rw [hstream2]
    rfl
  · rw [h2]
    rw [peerMap_toggle_fst, peerMap_toggle_fst]
  · rw [h2]
    rw [peerMap_toggle_signaling, peerMap_toggle_signaling]

theorem toggleMic_witness :
    (toggleMic stGlare).isMicOn = false
    ∧ ((toggleMic (toggleMic stGlare)).localStream.bind fun s =>
        (s.getAudioTracks.head?).map fun t => t.enabled) = some true := by
  have h := toggleMic_fanout_no_new_links_no_renegotiation stGlare streamEx trackA rfl
    (by decide)
  refine ⟨?_, ?_⟩
  · have h1 := h.1
    simpa [trackA] using h1
  · have h6 := h.2.2.2.2.2.1
    simpa [trackA] using h6

/-- C7: media acquisition tolerates partial failure: the combined stream is
used when the joint request succeeds; otherwise the audio-only and
video-only retries run independently and whatever first tracks they yield
are merged into one stream (video first, then audio, as the source adds
them); when both retries fail the function returns normally with no stream
set — the session proceeds without local media instead of aborting. -/
theorem initMedia_partial_failure (env : MediaEnv) :
    (∀ s, env.combined = some s → initMedia env = some s)
    ∧ (env.combined = none → env.videoOnly = none → env.audioOnly = none →
        initMedia env = none)
    ∧ (∀ v, env.combined = none → env.videoOnly = some v →
        initMedia env = some { tracks := v.getVideoTracks.head?.toList
          ++ (match env.audioOnly with
              | some sa => sa.getAudioTracks.head?.toList
              | none => []) })
    ∧ (∀ a, env.combined = none → env.videoOnly = none → env.audioOnly = some a →
        initMedia env = some { tracks := a.getAudioTracks.head?.toList }) := by
  refine ⟨?_, ?_, ?_, ?_⟩
  · intro s hs
    simp [initMedia, hs]
  · intro hc hv ha
    simp [initMedia, hc, hv, ha]
  · intro v hc hv
    cases ha : env.audioOnly with
    | none => simp [initMedia, hc, hv, ha]
    | some a => simp [initMedia, hc, hv, ha]
  · intro a hc hv ha
    simp [initMedia, hc, hv, ha]

/-- Concrete environment where only the audio-only retry succeeds. -/
def envAudioOnly : MediaEnv :=
  { combined := none, videoOnly := none, audioOnly := some { tracks := [trackA] } }

theorem initMedia_witness :
    initMedia envAudioOnly = some { tracks := [trackA] } := by
  have h := (initMedia_partial_failure envAudioOnly).2.2.2
    ({ tracks := [trackA] } : MediaStream) rfl rfl rfl
  simpa [MediaStream.getAudioTracks, trackA] using h

/-- C8: failing execution of the recorder pipeline.  A recorder created
while the mic was on (its `ondataavailable` closed over `isMicOn = true`)
is stopped when the user toggles the mic off — `toggleMic` flips the mic
state to off, the effect re-run's cleanup calls `stop()`, and the final
flushed chunk of 5000 bytes is nevertheless uploaded, because the handler's
guard consults the stale closed-over flag instead of the now-off mic state.
The source's own comment, "Do not send when mic has been turned off", shows
the upload was meant to be suppressed. -/
theorem recorder_stale_closure_uploads_after_mute :
    (toggleMic stGlare).isMicOn = false
    ∧ recorderEffectStep false (some { closureMicOn := true, recording := true }) (some 5000)
        = (none, true) := by
  exact ⟨by decide, by decide⟩

/-- Concrete environment where every device request fails. -/
def envAllFail : MediaEnv := { combined := none, videoOnly := none, audioOnly := none }

theorem runVoiceMsgs_unregistered (st : ConfState) (msgs : List VoiceMsg) :
    runVoiceMsgs false st msgs = st := by
  induction msgs generalizing st with
  | nil => rfl
  | cons msg rest ih => simp [runVoiceMsgs, dispatchVoice, ih]

/-- C10: when every device request fails, no local stream is set, so the
audio-signaling effect's guard fails: `join-voice-room` is never emitted,
the voice handlers are never registered, and consequently no incoming voice
message ever creates a peer connection — while the chat effect's emissions
do not depend on the media environment at all. -/
theorem voice_gated_on_local_stream
    (env : MediaEnv) (audioP chatP : Bool) (rid : Option String) (myId : String)
    (hc : env.combined = none) (hv : env.videoOnly = none) (ha : env.audioOnly = none) :
    initMedia env = none
    ∧ audioEffectEvents (mountState env audioP chatP rid myId) = []
    ∧ audioEffectActive (mountState env audioP chatP rid myId) = false
    ∧ (∀ msgs : List VoiceMsg,
        (runVoiceMsgs (audioEffectActive (mountState env audioP chatP rid myId))
          (mountState env audioP chatP rid myId) msgs).peerConnections = [])
    ∧ (∀ env2 : MediaEnv,
        chatEffectEvents (mountState env audioP chatP rid myId)
          = chatEffectEvents (mountState env2 audioP chatP rid myId)) := by
  have hinit : initMedia env = none := by
    simp [initMedia, hc, hv, ha]
  have hactive : audioEffectActive (mountState env audioP chatP rid myId) = false := by
    simp [audioEffectActive, mountState, hinit]
  refine ⟨hinit, ?_, hactive, ?_, ?_⟩
  · simp [audioEffectEvents, hactive]
  · intro msgs
    rw [hactive, runVoiceMsgs_unregistered]
    rfl
  · intro env2
    rfl

theorem voice_gated_witness :
    audioEffectEvents (mountState envAllFail true true (some "room1") "me") = []
    ∧ (runVoiceMsgs (audioEffectActive (mountState envAllFail true true (some "room1") "me"))
        (mountState envAllFail true true (some "room1") "me")
        [VoiceMsg.userJoined "p9"]).peerConnections = []
    ∧ chatEffectEvents (mountState envAllFail true true (some "room1") "me")
        = [SocketEvent.chatJoinRoom "room1"] := by
  have h := voice_gated_on_local_stream envAllFail true true (some "room1") "me" rfl rfl rfl
  exact ⟨h.2.1, h.2.2.2.1 [VoiceMsg.userJoined "p9"], by decide⟩

end Conf
